import Mathlib

/-!
Verification of the resource-template engine of fastmcp
(src/fastmcp/resources/template.py) against its specification.

The development shallowly embeds the `ResourceTemplate` class: pattern
placeholder extraction, `from_function` compilation, the URI matcher built by
translating the pattern into a Python regular expression, and
`create_resource` invocation.  Python callables are embedded as records
carrying their introspectable data (name, docstring, parameter list with
default-ness, derivable JSON schema) together with their call behaviour as a
function into an error monad.
-/

namespace FastMCP

/-- Character class of Python's regex word class as used for ASCII
placeholder names: letters, digits and underscore.  The source extracts
placeholders with the regex `\w+`; this development models the ASCII
fragment of that class. -/
def isWordChar (c : Char) : Bool := c.isAlphanum || c == '_'

/-- First character of a valid Python regex group name (an identifier):
a letter or underscore. -/
def isIdentStart (c : Char) : Bool := c.isAlpha || c == '_'

/-- Placeholder scanner, embedding the behaviour of Python's
re.findall with the pattern brace - word chars - brace on a character list.
The second argument is the scanner state: none while outside a candidate
placeholder, some acc after an opening brace with acc the word characters
read so far, in reverse.  Mirrors the left-to-right, non-overlapping
semantics of findall: a failed candidate falls back to scanning the
remaining characters, and an opening brace always starts a new candidate. -/
def scanPH : List Char → Option (List Char) → List String
  | [], _ => []
  | c :: rest, none =>
      if c = '{' then scanPH rest (some []) else scanPH rest none
  | c :: rest, some acc =>
      if c = '}' then
        if acc = [] then scanPH rest none
        else String.mk acc.reverse :: scanPH rest none
      else if c = '{' then scanPH rest (some [])
      else if isWordChar c then scanPH rest (some (c :: acc))
      else scanPH rest none

/-- Placeholder names of a URI template, in order of occurrence
(re.findall on the template). -/
def findPlaceholders (s : String) : List String := scanPH s.data none

/-- The set of placeholder names of a URI template: the source computes
set(re.findall(...)). -/
def uriParamsOf (s : String) : Finset String := (findPlaceholders s).toFinset

/-- A Python exception embedded as (type name, message). -/
abbrev PyErr := String × String

/-- Result of invoking a callable: either a plain value, or a coroutine
object whose awaiting yields a value or raises.  Content values are
embedded as strings. -/
inductive FnR
  | val (v : String)
  | coro (c : Except PyErr String)

/-- A Python callable as seen by the template engine: its introspectable
surface (dunder name, docstring, signature parameters each tagged with
whether it has a default, the TypeAdapter JSON schema outcome) plus its
call behaviour.  id models Python object identity, which is what equality
of callables compares.  The validate_call wrapper applied by
from_function is modelled as part of call: argument-coercion failures
appear as call returning an error. -/
structure PyFn where
  id : Nat
  name : String
  doc : Option String
  params : List (String × Bool)
  schema : Except PyErr String
  call : List (String × String) → Except PyErr FnR

/-- All parameter names of the callable's signature. -/
def PyFn.funcParams (f : PyFn) : Finset String :=
  (f.params.map Prod.fst).toFinset

/-- The required parameters: those whose default is Parameter.empty. -/
def PyFn.requiredParams (f : PyFn) : Finset String :=
  ((f.params.filter (fun p => !p.2)).map Prod.fst).toFinset

/-- The compiled template record, mirroring the pydantic model's fields.
parameters holds the derived JSON schema (embedded as its serialized
form). -/
structure ResourceTemplate where
  uri_template : String
  name : String
  description : String
  tags : Finset String
  mime_type : String
  fn : PyFn
  parameters : String

/-- Which of the two subset checks produced a ParameterMismatch error:
the message against the required function arguments, or against all
function arguments. -/
inductive MismatchKind
  | requiredArgs
  | functionArgs
deriving DecidableEq

/-- Compilation failures of from_function.  In the source all four are
ValueError (or a pydantic schema error); they are distinguished here by
the data their messages carry.  parameterMismatch carries the two sets
interpolated into the message: the URI placeholder set and the
required-params (resp. all-params) set. -/
inductive CompileError
  | anonymousCallable
  | invalidPattern
  | parameterMismatch (uriParams : Finset String) (expected : Finset String)
      (kind : MismatchKind)
  | schemaError (e : PyErr)
deriving DecidableEq

/-- Render a set of names for an error message.  Python formats the set
with f-string interpolation in unspecified order; the embedding renders
the names comma-separated in lexicographic order. -/
def renderNames (s : Finset String) : String :=
  String.intercalate ", " (s.sort (· ≤ ·))

/-- The message of each compilation failure, as raised by the source. -/
def CompileError.message : CompileError → String
  | .anonymousCallable => "You must provide a name for lambda functions"
  | .invalidPattern => "URI template must contain at least one parameter"
  | .parameterMismatch p e k =>
      "URI parameters " ++ renderNames p ++ " must be a subset of the " ++
        (match k with
          | .requiredArgs => "required function arguments: "
          | .functionArgs => "function arguments: ") ++ renderNames e
  | .schemaError e => e.2

/-- Python truthiness coalescing for optional strings: a or b where a is
None or a string; None and the empty string are falsy. -/
def pyOrStr : Option String → String → String
  | some s, d => if s = "" then d else s
  | none, d => d

/-- The display name resolved by from_function: name or fn.dunder-name. -/
def resolvedName (nm : Option String) (f : PyFn) : String := pyOrStr nm f.name

/-- ResourceTemplate.from_function.  Follows the source line by line:
resolve the name and reject lambdas, extract the placeholder set and
reject empty ones, check required-params against placeholders and
placeholders against all params, derive the schema (which can fail for
improperly typed callables), then freeze the template.  The stored
callable is the validate_call wrapper of f, whose behaviour is already
part of f.call. -/
def ResourceTemplate.from_function (f : PyFn) (uri_template : String)
    (nm : Option String := none) (description : Option String := none)
    (mime_type : Option String := none) (tags : Option (Finset String) := none) :
    Except CompileError ResourceTemplate :=
  let func_name := resolvedName nm f
  if func_name = "<lambda>" then .error .anonymousCallable
  else
    let uri_params := uriParamsOf uri_template
    if uri_params = ∅ then .error .invalidPattern
    else
      let func_params := f.funcParams
      let required_params := f.requiredParams
      if ¬ required_params ⊆ uri_params then
        .error (.parameterMismatch uri_params required_params .requiredArgs)
      else if ¬ uri_params ⊆ func_params then
        .error (.parameterMismatch uri_params func_params .functionArgs)
      else
        match f.schema with
        | .error e => .error (.schemaError e)
        | .ok sch =>
            .ok { uri_template := uri_template
                  name := func_name
                  description := pyOrStr description (pyOrStr f.doc "")
                  tags := (match tags with
                    | some s => if s = ∅ then ∅ else s
                    | none => ∅)
                  mime_type := pyOrStr mime_type "text/plain"
                  fn := f
                  parameters := sch }

/-! ### The matcher

ResourceTemplate.matches translates the template into a Python regular
expression by the two textual replacements
uri_template.replace(brace-open, open-group).replace(brace-close,
close-group) and runs re.match anchored with a caret and a dollar.  The
embedding performs the same two replacements and then models Python's
re engine on the fragment of regexes this translation can produce:
literal characters, the dot, and named groups of one-or-more
non-slash characters. -/

/-- Python regex metacharacters.  A literal occurrence of one of these in
the translated pattern is interpreted by the regex engine, not matched
textually; patterns containing them (outside the translated placeholder
groups) are outside the fragment this development models, except for the
dot, whose any-character semantics is modelled. -/
def rxMeta : List Char := ['.', '^', '$', '*', '+', '?', '(', ')', '[', ']',
  '{', '}', '|', '\\']

/-- One element of the translated regex in the modelled fragment:
a literal character, the dot, or a named group matching one-or-more
characters other than the slash. -/
inductive RSeg
  | lit (c : Char)
  | dot
  | group (name : String)
deriving DecidableEq

/-- The characters an opening brace is replaced with. -/
def openRepl : List Char := ['(', '?', 'P', '<']

/-- The characters a closing brace is replaced with. -/
def closeRepl : List Char := ['>', '[', '^', '/', ']', '+', ')']

/-- uri_template.replace of every opening brace, first replacement of the
source. -/
def replaceOpen (cs : List Char) : List Char :=
  cs.flatMap (fun c => if c = '{' then openRepl else [c])

/-- .replace of every closing brace, second replacement of the source.
The first replacement introduces no closing braces, so composing the two
is faithful to the sequential Python calls. -/
def replaceClose (cs : List Char) : List Char :=
  cs.flatMap (fun c => if c = '}' then closeRepl else [c])

/-- The full pattern translation performed by matches. -/
def toRegexChars (cs : List Char) : List Char := replaceClose (replaceOpen cs)

/-- Maximal prefix of word characters together with the rest. -/
def takeWhileWord : List Char → List Char × List Char
  | [] => ([], [])
  | c :: rest =>
      if isWordChar c then
        let p := takeWhileWord rest
        (c :: p.1, p.2)
      else ([], c :: rest)

/-- Fueled parser of the translated pattern into the modelled regex
fragment, following Python's re syntax: a named group is an opening
parenthesis, question mark, capital P, angle bracket, an identifier
name, then the closing angle bracket and the literal character class
one-or-more-non-slash and closing parenthesis; any other metacharacter
is outside the fragment (none).  Each step consumes at least one input
character, so fuel equal to the input length suffices. -/
def parseRxF : Nat → List Char → Option (List RSeg)
  | _, [] => some []
  | 0, _ :: _ => none
  | fuel + 1, c :: rest =>
      if c = '(' then
        match rest with
        | '?' :: 'P' :: '<' :: rest2 =>
            match takeWhileWord rest2 with
            | (w, rest3) =>
              match rest3 with
              | '>' :: '[' :: '^' :: '/' :: ']' :: '+' :: ')' :: rest4 =>
                  match w with
                  | [] => none
                  | c0 :: _ =>
                      if isIdentStart c0 then
                        (parseRxF fuel rest4).map
                          (fun segs => RSeg.group (String.mk w) :: segs)
                      else none
              | _ => none
        | _ => none
      else if c = '.' then
        (parseRxF fuel rest).map (fun segs => RSeg.dot :: segs)
      else if c ∈ rxMeta then none
      else
        (parseRxF fuel rest).map (fun segs => RSeg.lit c :: segs)

/-- Parse a translated pattern, with sufficient fuel. -/
def parseRx (cs : List Char) : Option (List RSeg) := parseRxF cs.length cs

/-- The names of the groups of a parsed pattern, in order. -/
def groupNames : List RSeg → List String
  | [] => []
  | RSeg.group n :: rest => n :: groupNames rest
  | _ :: rest => groupNames rest

/-- All ways to split a character list into a non-empty prefix and the
corresponding suffix, longest prefix first: the backtracking order of a
greedy one-or-more repetition. -/
def splitsDesc (ds : List Char) : List (List Char × List Char) :=
  (List.range ds.length).map
    (fun i => (ds.take (ds.length - i), ds.drop (ds.length - i)))

/-- Anchored matching of a parsed pattern against a character list,
following Python's re engine on the modelled fragment: the caret anchors
at the start; the appended dollar accepts the end of the string or a
single newline at the end of the string; the dot matches any character
except newline; a group matches greedily one or more non-slash
characters with backtracking, capturing the consumed substring.  On
success returns the groupdict as a list of (name, captured) pairs in
group order. -/
def matchSegs : List RSeg → List Char → Option (List (String × String))
  | [], ds => if ds = [] ∨ ds = ['\n'] then some [] else none
  | RSeg.lit c :: rest, ds =>
      match ds with
      | d :: ds2 => if d = c then matchSegs rest ds2 else none
      | [] => none
  | RSeg.dot :: rest, ds =>
      match ds with
      | d :: ds2 => if d = '\n' then none else matchSegs rest ds2
      | [] => none
  | RSeg.group n :: rest, ds =>
      (splitsDesc ds).findSome?
        (fun pr =>
          if pr.1.all (fun c => c ≠ '/') then
            (matchSegs rest pr.2).map (fun m => (n, String.mk pr.1) :: m)
          else none)

/-- Outcome of ResourceTemplate.matches.  result is the source's return
value (the groupdict, or None); raises models the Python re module
raising at pattern compilation (re.error, e.g. redefinition of a group
name); unmodelled marks patterns outside the embedded regex fragment,
about which this development proves nothing. -/
inductive MatchOutcome
  | raises
  | unmodelled
  | result (m : Option (List (String × String)))
deriving DecidableEq

/-- ResourceTemplate.matches: translate the pattern, compile it (Python's
re rejects a pattern that defines the same group name twice), and run the
anchored match. -/
def ResourceTemplate.matches (t : ResourceTemplate) (uri : String) :
    MatchOutcome :=
  match parseRx (toRegexChars t.uri_template.data) with
  | none => .unmodelled
  | some segs =>
      if (groupNames segs).Nodup then .result (matchSegs segs uri.data)
      else .raises

/-! ### The invoker -/

/-- The resource value constructed by create_resource.  The
FunctionResource class lives outside the covered source
(fastmcp.resources.types); modelled from the spec: the Resource exposes
a URI, name, description, MIME type, tag set, and a zero-argument
content-producing capability.  The fields hold exactly the arguments
create_resource passes. -/
structure FunctionResource where
  uri : String
  name : String
  description : String
  mime_type : String
  tags : Finset String
  fn : Unit → String

/-- The value computed by the invocation steps of create_resource before
resource construction: call the stored callable, and if the result is a
coroutine await it.  Errors of either step surface here. -/
def callResult (t : ResourceTemplate) (params : List (String × String)) :
    Except PyErr String :=
  match t.fn.call params with
  | .error e => .error e
  | .ok (FnR.val v) => .ok v
  | .ok (FnR.coro c) => c

/-- ResourceTemplate.create_resource: invoke the callable, await a
coroutine result, and wrap the computed value in a FunctionResource whose
content capability is the closure capturing the result; any exception of
the invocation is re-raised as ValueError with the prefixed message. -/
def ResourceTemplate.create_resource (t : ResourceTemplate) (uri : String)
    (params : List (String × String)) : Except PyErr FunctionResource :=
  match callResult t params with
  | .error e =>
      .error ("ValueError", "Error creating resource from template: " ++ e.2)
  | .ok result =>
      .ok { uri := uri
            name := t.name
            description := t.description
            mime_type := t.mime_type
            fn := fun _ => result
            tags := t.tags }

/-! ### Structural equality -/

/-- An arbitrary Python object compared against a template: either a
ResourceTemplate or something else (whose identity is irrelevant to the
comparison). -/
inductive PyObject
  | template (t : ResourceTemplate)
  | nonTemplate (id : Nat)

/-- The model_dump of the template's pydantic fields, in declaration
order.  The callable field is dumped as the callable object itself, whose
Python equality is object identity, modelled by its id. -/
def modelDump (t : ResourceTemplate) :
    String × String × String × Finset String × String × Nat × String :=
  (t.uri_template, t.name, t.description, t.tags, t.mime_type, t.fn.id,
    t.parameters)

/-- ResourceTemplate.dunder-eq: False for non-templates, model_dump
comparison otherwise. -/
def rtEq (t : ResourceTemplate) : PyObject → Bool
  | PyObject.template o => decide (modelDump t = modelDump o)
  | PyObject.nonTemplate _ => false

/-! ### Specification-side pattern decomposition

The spec describes matching as decomposing the URI along the pattern's
literal/placeholder boundaries, literal segments matched exactly as
literal text and each placeholder matched by one or more non-slash
characters.  The following definitions follow the spec's words (not the
source) and serve as the comparison point for the matcher claims. -/

/-- A pattern token as the spec sees it: a literal character or a named
placeholder. -/
inductive Tok
  | lit (c : Char)
  | ph (name : String)
deriving DecidableEq

/-- The pattern string denoted by a token list: placeholders rendered in
brace syntax. -/
def renderToks : List Tok → List Char
  | [] => []
  | Tok.lit c :: ts => c :: renderToks ts
  | Tok.ph n :: ts => '{' :: (n.data ++ '}' :: renderToks ts)

/-- The regex segment a token is translated to. -/
def toSeg : Tok → RSeg
  | Tok.lit c => RSeg.lit c
  | Tok.ph n => RSeg.group n

/-- Placeholder names of a token list, in order. -/
def phNames : List Tok → List String
  | [] => []
  | Tok.ph n :: ts => n :: phNames ts
  | _ :: ts => phNames ts

/-- Decomposition of a URI along the token list, modelled from the spec:
the whole URI splits so that every literal token matches its character
exactly and every placeholder consumes one or more characters none of
which is a slash. -/
def specMatch : List Tok → List Char → Bool
  | [], ds => ds.isEmpty
  | Tok.lit c :: ts, ds =>
      match ds with
      | d :: ds2 => d == c && specMatch ts ds2
      | [] => false
  | Tok.ph _ :: ts, ds =>
      (splitsDesc ds).any
        (fun pr => pr.1.all (fun c => c ≠ '/') && specMatch ts pr.2)

/-- Wellformedness of a token: a literal is not a regex metacharacter
(so the regex engine treats it textually), a placeholder name is a
non-empty identifier of word characters (so the translated group is
syntactically valid for the regex engine). -/
def tokOkB : Tok → Bool
  | Tok.lit c => !(decide (c ∈ rxMeta))
  | Tok.ph n =>
      match n.data with
      | [] => false
      | c0 :: _ => isIdentStart c0 && n.data.all isWordChar

/-- Wellformedness of a token list. -/
def toksOk (ts : List Tok) : Bool := ts.all tokOkB

deriving instance DecidableEq for Except

deriving instance DecidableEq for FnR

/-! ### Concrete callables, mirroring the fixtures of the repository's
test suite -/

/-- The test suite's my_func(key: str, value: int), returning data built
from both arguments. -/
def fnKV : PyFn :=
  { id := 1, name := "my_func", doc := none,
    params := [("key", false), ("value", false)],
    schema := Except.ok "schemaKV",
    call := fun ps =>
      match ps with
      | [("key", k), ("value", v)] => Except.ok (FnR.val (k ++ ":" ++ v))
      | _ => Except.error ("TypeError", "bad args") }

/-- The template the test suite compiles from fnKV and the pattern
test with key and value placeholders. -/
def tmplKV : ResourceTemplate :=
  { uri_template := "test://{key}/{value}", name := "test", description := "",
    tags := ∅, mime_type := "text/plain", fn := fnKV, parameters := "schemaKV" }

/-- The spec-side token list of tmplKV's pattern. -/
def toksKV : List Tok :=
  [Tok.lit 't', Tok.lit 'e', Tok.lit 's', Tok.lit 't', Tok.lit ':',
   Tok.lit '/', Tok.lit '/', Tok.ph "key", Tok.lit '/', Tok.ph "value"]

/-- A callable with a single required parameter x. -/
def fnX : PyFn :=
  { id := 3, name := "my_func", doc := none, params := [("x", false)],
    schema := Except.ok "schemaX",
    call := fun _ => Except.ok (FnR.val "v") }

/-- The spec-side token list of the pattern a.b://(x), whose literal
segment contains the regex metacharacter dot. -/
def toksDot : List Tok :=
  [Tok.lit 'a', Tok.lit '.', Tok.lit 'b', Tok.lit ':', Tok.lit '/',
   Tok.lit '/', Tok.ph "x"]

/-- A callable with a single required parameter key, compiled against a
pattern repeating that placeholder. -/
def dupFn : PyFn :=
  { id := 4, name := "dup", doc := none, params := [("key", false)],
    schema := Except.ok "schemaDup",
    call := fun _ => Except.ok (FnR.val "v") }

/-- An anonymous callable: a lambda, whose dunder name is the fixed
lambda marker. -/
def lamFn : PyFn :=
  { id := 5, name := "<lambda>", doc := none, params := [("x", false)],
    schema := Except.ok "schemaLam",
    call := fun _ => Except.ok (FnR.val "v") }

/-- A callable whose parameters the TypeAdapter cannot introspect: schema
derivation raises. -/
def badSchemaFn : PyFn :=
  { id := 6, name := "untyped", doc := none, params := [("x", false)],
    schema := Except.error ("PydanticSchemaGenerationError",
      "Unable to generate pydantic-core schema"),
    call := fun _ => Except.ok (FnR.val "v") }

/-- The test suite's failing_func(x: str), which always raises
ValueError with the message Test error; embedded here with a distinct
native exception type to show the wrapper hides it. -/
def failFn : PyFn :=
  { id := 7, name := "failing_func", doc := none, params := [("x", false)],
    schema := Except.ok "schemaFail",
    call := fun _ => Except.error ("RuntimeError", "Test error") }

/-- The template compiled from failFn and the pattern fail://(x). -/
def tmplFail : ResourceTemplate :=
  { uri_template := "fail://{x}", name := "fail", description := "",
    tags := ∅, mime_type := "text/plain", fn := failFn,
    parameters := "schemaFail" }

/-- The test suite's async greet(name: str): calling it returns a
coroutine which, awaited, yields the greeting. -/
def greetFn : PyFn :=
  { id := 8, name := "greet", doc := none, params := [("name", false)],
    schema := Except.ok "schemaGreet",
    call := fun ps =>
      match ps with
      | [("name", nv)] =>
          Except.ok (FnR.coro (Except.ok ("Hello, " ++ nv ++ "!")))
      | _ => Except.error ("TypeError", "bad args") }

/-- The spec-side token list of the pattern greet://(name). -/
def toksGreet : List Tok :=
  [Tok.lit 'g', Tok.lit 'r', Tok.lit 'e', Tok.lit 'e', Tok.lit 't',
   Tok.lit ':', Tok.lit '/', Tok.lit '/', Tok.ph "name"]

/-- The template compiled from greetFn and the pattern greet://(name). -/
def tmplGreet : ResourceTemplate :=
  { uri_template := "greet://{name}", name := "greeter", description := "",
    tags := ∅, mime_type := "text/plain", fn := greetFn,
    parameters := "schemaGreet" }

/-! ### Helper lemmas about the pattern translation and the regex parser -/

theorem stringMk_data (s : String) : String.mk s.data = s := rfl

theorem wordChar_ne_open {c : Char} (h : isWordChar c = true) : c ≠ '{' := by
  rintro rfl; exact absurd h (by decide)

theorem wordChar_ne_close {c : Char} (h : isWordChar c = true) : c ≠ '}' := by
  rintro rfl; exact absurd h (by decide)

theorem replaceClose_append (a b : List Char) :
    replaceClose (a ++ b) = replaceClose a ++ replaceClose b := by
  simp [replaceClose]

theorem toRegexChars_nil : toRegexChars [] = [] := rfl

theorem toRegexChars_cons_lit {c : Char} (h1 : c ≠ '{') (h2 : c ≠ '}')
    (cs : List Char) : toRegexChars (c :: cs) = c :: toRegexChars cs := by
  simp [toRegexChars, replaceOpen, replaceClose, List.flatMap_cons, h1, h2]

theorem toRegexChars_cons_open (cs : List Char) :
    toRegexChars ('{' :: cs) = openRepl ++ toRegexChars cs := by
  simp [toRegexChars, replaceOpen, List.flatMap_cons, replaceClose_append]
  rfl

theorem toRegexChars_cons_close (cs : List Char) :
    toRegexChars ('}' :: cs) = closeRepl ++ toRegexChars cs := by
  simp [toRegexChars, replaceOpen, replaceClose, List.flatMap_cons]

theorem toRegexChars_word (w cs : List Char)
    (hw : ∀ c ∈ w, isWordChar c = true) :
    toRegexChars (w ++ cs) = w ++ toRegexChars cs := by
  induction w with
  | nil => simp
  | cons c w ih =>
      have hc := hw c (by simp)
      rw [List.cons_append,
        toRegexChars_cons_lit (wordChar_ne_open hc) (wordChar_ne_close hc),
        ih (fun d hd => hw d (by simp [hd]))]
      simp

theorem takeWhileWord_append (w : List Char) (d : Char) (l : List Char)
    (hw : ∀ c ∈ w, isWordChar c = true) (hd : isWordChar d = false) :
    takeWhileWord (w ++ d :: l) = (w, d :: l) := by
  induction w with
  | nil => simp [takeWhileWord, hd]
  | cons c w ih =>
      have hc := hw c (by simp)
      simp only [List.cons_append, takeWhileWord, hc, if_true, List.append_eq]
      rw [ih (fun e he => hw e (by simp [he]))]

theorem parseRxF_nil (fuel : Nat) : parseRxF fuel [] = some [] := by
  cases fuel <;> rfl

theorem parseRxF_succ (f : Nat) (c : Char) (rest : List Char) (h1 : c ≠ '(')
    (h2 : c ≠ '.') (h3 : ¬ (c ∈ rxMeta)) :
    parseRxF (f + 1) (c :: rest) =
      (parseRxF f rest).map (fun segs => RSeg.lit c :: segs) := by
  rw [parseRxF.eq_def]
  simp only [h1, h2, h3, if_false, if_true]

theorem parseRxF_succ_group (f : Nat) (rest2 : List Char) :
    parseRxF (f + 1) ('(' :: ('?' :: ('P' :: ('<' :: rest2)))) =
      (match (takeWhileWord rest2).2 with
       | '>' :: '[' :: '^' :: '/' :: ']' :: '+' :: ')' :: rest4 =>
           (match (takeWhileWord rest2).1 with
            | [] => none
            | c0 :: _ =>
                if isIdentStart c0 then
                  (parseRxF f rest4).map
                    (fun segs =>
                      RSeg.group (String.mk (takeWhileWord rest2).1) :: segs)
                else none)
       | _ => none) := rfl

/-- Parsing the translation of a wellformed token list yields exactly the
corresponding regex segments, given sufficient fuel. -/
theorem parseRxF_render (ts : List Tok) : ∀ fuel : Nat, toksOk ts = true →
    (toRegexChars (renderToks ts)).length ≤ fuel →
    parseRxF fuel (toRegexChars (renderToks ts)) = some (ts.map toSeg) := by
  induction ts with
  | nil => intro fuel _ _; simp [renderToks, toRegexChars_nil, parseRxF]
  | cons t ts ih =>
      intro fuel hok hlen
      have hok1 : tokOkB t = true := by
        have := (List.all_eq_true.mp hok) t (by simp)
        exact this
      have hok2 : toksOk ts = true := by
        refine List.all_eq_true.mpr ?_
        intro x hx
        exact (List.all_eq_true.mp hok) x (by simp [hx])
      cases t with
      | lit c =>
          have hmem : ¬ (c ∈ rxMeta) := by
            simpa [tokOkB] using hok1
          have h1 : c ≠ '{' := fun h => hmem (by simp [h, rxMeta])
          have h2 : c ≠ '}' := fun h => hmem (by simp [h, rxMeta])
          rw [renderToks, toRegexChars_cons_lit h1 h2] at hlen ⊢
          have hpos : 0 < fuel := by
            simp only [List.length_cons] at hlen; omega
          obtain ⟨f, rfl⟩ : ∃ f, fuel = f + 1 :=
            ⟨fuel - 1, by omega⟩
          have hpar : c ≠ '(' := fun h => hmem (by simp [h, rxMeta])
          have hdot : c ≠ '.' := fun h => hmem (by simp [h, rxMeta])
          rw [parseRxF_succ f c _ hpar hdot hmem,
            ih f hok2 (by simp only [List.length_cons] at hlen; omega)]
          simp [toSeg]
      | ph n =>
          have hname : ∃ c0 w', n.data = c0 :: w' ∧ isIdentStart c0 = true ∧
              (∀ c ∈ n.data, isWordChar c = true) := by
            revert hok1
            simp only [tokOkB]
            cases h : n.data with
            | nil => intro h0; exact absurd h0 (by simp)
            | cons c0 w' =>
                intro h0
                have := Bool.and_elim_left h0
                have hall := Bool.and_elim_right h0
                exact ⟨c0, w', rfl, this, List.all_eq_true.mp hall⟩
          obtain ⟨c0, w', hd, hstart, hall⟩ := hname
          rw [renderToks, toRegexChars_cons_open,
            toRegexChars_word n.data ('}' :: renderToks ts) hall,
            toRegexChars_cons_close] at hlen ⊢
          have hpos : 0 < fuel := by
            simp only [List.length_append, openRepl, closeRepl,
              List.length_cons] at hlen
            omega
          obtain ⟨f, rfl⟩ : ∃ f, fuel = f + 1 := ⟨fuel - 1, by omega⟩
          have hstep :
              openRepl ++ (n.data ++ (closeRepl ++
                  toRegexChars (renderToks ts))) =
                '(' :: ('?' :: ('P' :: ('<' :: (n.data ++ (closeRepl ++
                  toRegexChars (renderToks ts)))))) := by
            simp [openRepl]
          rw [hstep]
          have htw : takeWhileWord (n.data ++ (closeRepl ++
              toRegexChars (renderToks ts))) =
              (n.data, closeRepl ++ toRegexChars (renderToks ts)) := by
            have : closeRepl ++ toRegexChars (renderToks ts) =
                '>' :: ('[' :: ('^' :: ('/' :: (']' :: ('+' :: (')' ::
                  toRegexChars (renderToks ts))))))) := by
              simp [closeRepl]
            rw [this]
            exact takeWhileWord_append n.data '>' _ hall (by decide)
          have hclose : closeRepl ++ toRegexChars (renderToks ts) =
              '>' :: ('[' :: ('^' :: ('/' :: (']' :: ('+' :: (')' ::
                toRegexChars (renderToks ts))))))) := by
            simp [closeRepl]
          rw [parseRxF_succ_group, htw]
          have hlenR : (toRegexChars (renderToks ts)).length ≤ f := by
            simp only [List.length_append, openRepl, closeRepl,
              List.length_cons] at hlen
            omega
          simp only [hclose, hd, hstart, if_true,
            ih f hok2 hlenR, Option.map_some]
          rw [← hd]
          rfl

/-- Parsing the translation of a wellformed token list yields exactly the
corresponding regex segments. -/
theorem parseRx_render (ts : List Tok) (hok : toksOk ts = true) :
    parseRx (toRegexChars (renderToks ts)) = some (ts.map toSeg) :=
  parseRxF_render ts (toRegexChars (renderToks ts)).length hok le_rfl

theorem findSome_isSome_iff {α β : Type} (l : List α) (f : α → Option β) :
    ((l.findSome? f).isSome = true) ↔ ∃ a ∈ l, (f a).isSome = true := by
  induction l with
  | nil => simp [List.findSome?]
  | cons a l ih =>
      rw [List.findSome?_cons]
      cases h : f a with
      | some b => simp [h]
      | none => simp [h, ih]

theorem lastOk_tail {d : Char} {ds : List Char}
    (h : (d :: ds).getLast? ≠ some '\n') : ds.getLast? ≠ some '\n' := by
  cases ds with
  | nil => simp
  | cons e es => rw [List.getLast?_cons_cons] at h; exact h

theorem lastOk_drop {ds : List Char} (k : Nat)
    (h : ds.getLast? ≠ some '\n') : (ds.drop k).getLast? ≠ some '\n' := by
  induction k generalizing ds with
  | zero => simpa using h
  | succ k ih =>
      cases ds with
      | nil => simp
      | cons d ds => rw [List.drop_succ_cons]; exact ih (lastOk_tail h)

/-- Anchored matching of the translated segments succeeds exactly when the
URI decomposes along the token boundaries in the sense of the spec,
provided the URI does not end in a newline (for such URIs the appended
dollar of the translated regex is more permissive than exact anchoring). -/
theorem matchSegs_isSome_iff (ts : List Tok) :
    ∀ ds : List Char, ds.getLast? ≠ some '\n' →
    (((matchSegs (ts.map toSeg) ds).isSome = true) ↔ specMatch ts ds = true) := by
  induction ts with
  | nil =>
      intro ds h
      simp only [List.map_nil, matchSegs, specMatch]
      constructor
      · intro hs
        by_cases hc : ds = [] ∨ ds = ['\n']
        · rcases hc with rfl | rfl
          · simp
          · simp at h
        · rw [if_neg hc] at hs; simp at hs
      · intro hs
        have : ds = [] := by simpa using hs
        subst this; simp
  | cons t ts ih =>
      intro ds h
      cases t with
      | lit c =>
          simp only [List.map_cons, toSeg, matchSegs, specMatch]
          cases ds with
          | nil => simp
          | cons d ds2 =>
              by_cases hdc : d = c
              · subst hdc
                simp only [if_pos rfl, beq_self_eq_true, Bool.true_and]
                exact ih ds2 (lastOk_tail h)
              · simp [hdc]
      | ph n =>
          simp only [List.map_cons, toSeg, matchSegs, specMatch]
          rw [findSome_isSome_iff, List.any_eq_true]
          refine exists_congr (fun pr => and_congr_right (fun hmem => ?_))
          obtain ⟨i, _, hpr⟩ := List.mem_map.mp hmem
          cases hpr
          dsimp only
          by_cases hall :
              ((List.take (ds.length - i) ds).all fun c => decide (c ≠ '/')) =
                true
          · rw [if_pos hall, Option.isSome_map', ih _ (lastOk_drop _ h)]
            simp only [hall, Bool.true_and]
          · rw [if_neg hall]
            rw [Bool.not_eq_true] at hall
            rw [hall]
            simp

theorem groupNames_map_toSeg (ts : List Tok) :
    groupNames (ts.map toSeg) = phNames ts := by
  induction ts with
  | nil => rfl
  | cons t ts ih => cases t <;> simp [toSeg, groupNames, phNames, ih]

/-- Case analysis of from_function on the resolved name: a resolved
lambda marker fails with the anonymous error before anything else;
otherwise the anonymous error is impossible and a successful compilation
stores the resolved name. -/
theorem from_function_cases (f : PyFn) (pat : String) (nm d m : Option String)
    (tg : Option (Finset String)) :
    (resolvedName nm f = "<lambda>" →
      ResourceTemplate.from_function f pat nm d m tg =
        Except.error CompileError.anonymousCallable) ∧
    (resolvedName nm f ≠ "<lambda>" →
      (ResourceTemplate.from_function f pat nm d m tg ≠
        Except.error CompileError.anonymousCallable) ∧
      ∀ T, ResourceTemplate.from_function f pat nm d m tg = Except.ok T →
        T.name = resolvedName nm f) := by
  constructor
  · intro hname
    simp only [ResourceTemplate.from_function]
    rw [if_pos hname]
  · intro hname
    simp only [ResourceTemplate.from_function]
    rw [if_neg hname]
    by_cases hP : uriParamsOf pat = ∅
    · rw [if_pos hP]
      exact ⟨by simp, fun T hT => by cases hT⟩
    · rw [if_neg hP]
      by_cases h1 : ¬ f.requiredParams ⊆ uriParamsOf pat
      · rw [if_pos h1]
        exact ⟨by simp, fun T hT => by cases hT⟩
      · rw [if_neg h1]
        by_cases h2 : ¬ uriParamsOf pat ⊆ f.funcParams
        · rw [if_pos h2]
          exact ⟨by simp, fun T hT => by cases hT⟩
        · rw [if_neg h2]
          cases hs : f.schema with
          | error e => exact ⟨by simp, fun T hT => by cases hT⟩
          | ok s => exact ⟨by simp, fun T hT => by cases hT; rfl⟩

/-! ### Claims about the compiler -/

/-- C1 (amended): for callables whose resolved name is usable and whose
parameter schema is derivable, compilation succeeds iff the required
parameters are contained in the placeholders and the placeholders in the
full parameter set; otherwise it fails with ParameterMismatch carrying
the placeholder set together with the required (resp. full) parameter
set, and every offending name (a required parameter missing from the
pattern, or a placeholder unknown to the callable) is among the carried
sets interpolated into the message. -/
theorem claim1_compile_iff (f : PyFn) (pat : String) (nm d m : Option String)
    (tg : Option (Finset String)) (hname : resolvedName nm f ≠ "<lambda>")
    (hschema : ∃ s, f.schema = Except.ok s) (hP : uriParamsOf pat ≠ ∅) :
    ((∃ T, ResourceTemplate.from_function f pat nm d m tg = Except.ok T) ↔
      f.requiredParams ⊆ uriParamsOf pat ∧
        uriParamsOf pat ⊆ f.funcParams) ∧
    (¬ f.requiredParams ⊆ uriParamsOf pat →
      ResourceTemplate.from_function f pat nm d m tg =
        Except.error (CompileError.parameterMismatch (uriParamsOf pat)
          f.requiredParams MismatchKind.requiredArgs) ∧
      ∀ x ∈ f.requiredParams \ uriParamsOf pat, x ∈ f.requiredParams) ∧
    (f.requiredParams ⊆ uriParamsOf pat →
      ¬ uriParamsOf pat ⊆ f.funcParams →
      ResourceTemplate.from_function f pat nm d m tg =
        Except.error (CompileError.parameterMismatch (uriParamsOf pat)
          f.funcParams MismatchKind.functionArgs) ∧
      ∀ x ∈ uriParamsOf pat \ f.funcParams, x ∈ uriParamsOf pat) := by
  obtain ⟨s, hs⟩ := hschema
  have hredA : ∀ (_ : f.requiredParams ⊆ uriParamsOf pat)
      (_ : uriParamsOf pat ⊆ f.funcParams),
      ResourceTemplate.from_function f pat nm d m tg =
        Except.ok
          { uri_template := pat, name := resolvedName nm f,
            description := pyOrStr d (pyOrStr f.doc ""),
            tags := (match tg with
              | some s2 => if s2 = ∅ then ∅ else s2
              | none => ∅),
            mime_type := pyOrStr m "text/plain", fn := f,
            parameters := s } := by
    intro h1 h2
    simp only [ResourceTemplate.from_function]
    rw [if_neg hname, if_neg hP, if_neg (not_not_intro h1),
      if_neg (not_not_intro h2), hs]
    rfl
  have hredB : ¬ f.requiredParams ⊆ uriParamsOf pat →
      ResourceTemplate.from_function f pat nm d m tg =
        Except.error (CompileError.parameterMismatch (uriParamsOf pat)
          f.requiredParams MismatchKind.requiredArgs) := by
    intro h1
    simp only [ResourceTemplate.from_function]
    rw [if_neg hname, if_neg hP, if_pos h1]
  have hredC : f.requiredParams ⊆ uriParamsOf pat →
      ¬ uriParamsOf pat ⊆ f.funcParams →
      ResourceTemplate.from_function f pat nm d m tg =
        Except.error (CompileError.parameterMismatch (uriParamsOf pat)
          f.funcParams MismatchKind.functionArgs) := by
    intro h1 h2
    simp only [ResourceTemplate.from_function]
    rw [if_neg hname, if_neg hP, if_neg (not_not_intro h1), if_pos h2]
  refine ⟨⟨?_, ?_⟩, ?_, ?_⟩
  · rintro ⟨T, hT⟩
    by_cases h1 : f.requiredParams ⊆ uriParamsOf pat
    · by_cases h2 : uriParamsOf pat ⊆ f.funcParams
      · exact ⟨h1, h2⟩
      · rw [hredC h1 h2] at hT; cases hT
    · rw [hredB h1] at hT; cases hT
  · rintro ⟨h1, h2⟩
    exact ⟨_, hredA h1 h2⟩
  · intro h1
    exact ⟨hredB h1, fun x hx => (Finset.mem_sdiff.mp hx).1⟩
  · intro h1 h2
    exact ⟨hredC h1 h2, fun x hx => (Finset.mem_sdiff.mp hx).1⟩

theorem claim1_compile_iff_witness :
    ∃ T, ResourceTemplate.from_function fnKV "test://{key}/{value}"
      (some "test") none none none = Except.ok T :=
  (claim1_compile_iff fnKV "test://{key}/{value}" (some "test") none none
    none (by decide) ⟨"schemaKV", rfl⟩ (by decide)).1.mpr (by decide)

/-- C1 counterexample: two callables with required set contained in the
placeholder set contained in the parameter set for which compilation
nevertheless fails, and not with ParameterMismatch: a callable whose
schema cannot be derived, and an anonymous callable without a supplied
name. -/
theorem claim1_counterexample :
    (badSchemaFn.requiredParams ⊆ uriParamsOf "t://{x}" ∧
      uriParamsOf "t://{x}" ⊆ badSchemaFn.funcParams ∧
      (ResourceTemplate.from_function badSchemaFn "t://{x}" (some "n") none
        none none).map (fun T => T.name) =
          Except.error (CompileError.schemaError
            ("PydanticSchemaGenerationError",
              "Unable to generate pydantic-core schema"))) ∧
    (lamFn.requiredParams ⊆ uriParamsOf "t://{x}" ∧
      uriParamsOf "t://{x}" ⊆ lamFn.funcParams ∧
      (ResourceTemplate.from_function lamFn "t://{x}" none none none
        none).map (fun T => T.name) =
          Except.error CompileError.anonymousCallable) := by
  exact ⟨⟨by decide, by decide, by decide⟩, ⟨by decide, by decide, by decide⟩⟩

/-- C6 (amended): for a pattern with zero placeholders compilation always
fails; it fails with the InvalidPattern error, whose message is the
quoted one, whenever the resolved name is usable — an anonymous callable
without a supplied name fails with the lambda-name error first instead. -/
theorem claim6_invalid_pattern (f : PyFn) (pat : String)
    (nm d m : Option String) (tg : Option (Finset String))
    (hzero : uriParamsOf pat = ∅) :
    (∀ T, ResourceTemplate.from_function f pat nm d m tg ≠ Except.ok T) ∧
    (resolvedName nm f ≠ "<lambda>" →
      ResourceTemplate.from_function f pat nm d m tg =
        Except.error CompileError.invalidPattern ∧
      CompileError.invalidPattern.message =
        "URI template must contain at least one parameter") := by
  have hred : resolvedName nm f ≠ "<lambda>" →
      ResourceTemplate.from_function f pat nm d m tg =
        Except.error CompileError.invalidPattern := by
    intro hname
    simp only [ResourceTemplate.from_function]
    rw [if_neg hname, if_pos hzero]
  constructor
  · intro T hT
    by_cases hname : resolvedName nm f = "<lambda>"
    · rw [(from_function_cases f pat nm d m tg).1 hname] at hT
      cases hT
    · rw [hred hname] at hT; cases hT
  · intro hname
    exact ⟨hred hname, rfl⟩

theorem claim6_invalid_pattern_witness :
    ResourceTemplate.from_function fnKV "test://no-params" (some "test")
        none none none = Except.error CompileError.invalidPattern :=
  ((claim6_invalid_pattern fnKV "test://no-params" (some "test") none none
    none (by decide)).2 (by decide)).1

/-- C6 counterexample: a zero-placeholder pattern for which compilation
does not fail with InvalidPattern: a lambda without a supplied name fails
with the lambda-name error instead. -/
theorem claim6_counterexample :
    uriParamsOf "test://no-params" = ∅ ∧
    (ResourceTemplate.from_function lamFn "test://no-params" none none none
      none).map (fun T => T.name) =
        Except.error CompileError.anonymousCallable ∧
    CompileError.anonymousCallable ≠ CompileError.invalidPattern := by
  exact ⟨by decide, by decide, by decide⟩

/-- C7 (amended): a supplied name that is non-empty and not the literal
lambda marker is stored as the template's name and excludes the
anonymous-callable failure; with no name supplied the callable's own name
is stored and the anonymous-callable failure occurs exactly when that
name is the lambda marker.  (A supplied empty name is falsy in Python and
treated as absent; a supplied lambda marker triggers the anonymous
failure.) -/
theorem claim7_name_resolution (f : PyFn) (pat : String) (d m : Option String)
    (tg : Option (Finset String)) :
    (∀ n : String, n ≠ "" → n ≠ "<lambda>" →
      (ResourceTemplate.from_function f pat (some n) d m tg ≠
        Except.error CompileError.anonymousCallable) ∧
      ∀ T, ResourceTemplate.from_function f pat (some n) d m tg =
        Except.ok T → T.name = n) ∧
    ((∀ T, ResourceTemplate.from_function f pat none d m tg = Except.ok T →
        T.name = f.name) ∧
      (ResourceTemplate.from_function f pat none d m tg =
          Except.error CompileError.anonymousCallable ↔
        f.name = "<lambda>")) := by
  constructor
  · intro n hne hnl
    have hres : resolvedName (some n) f = n := by
      simp [resolvedName, pyOrStr, hne]
    have h := (from_function_cases f pat (some n) d m tg).2
      (by rw [hres]; exact hnl)
    exact ⟨h.1, fun T hT => by rw [h.2 T hT, hres]⟩
  · have hres : resolvedName none f = f.name := rfl
    constructor
    · intro T hT
      by_cases hname : f.name = "<lambda>"
      · rw [(from_function_cases f pat none d m tg).1
          (by rw [hres]; exact hname)] at hT
        cases hT
      · have h := (from_function_cases f pat none d m tg).2
          (by rw [hres]; exact hname)
        rw [h.2 T hT, hres]
    · constructor
      · intro hT
        by_contra hname
        exact ((from_function_cases f pat none d m tg).2
          (by rw [hres]; exact hname)).1 hT
      · intro hname
        exact (from_function_cases f pat none d m tg).1
          (by rw [hres]; exact hname)

theorem claim7_name_resolution_witness :
    (ResourceTemplate.from_function fnX "t://{x}" (some "bob") none none
      none ≠ Except.error CompileError.anonymousCallable) ∧
    (ResourceTemplate.from_function fnX "t://{x}" none none none none =
        Except.error CompileError.anonymousCallable ↔
      fnX.name = "<lambda>") :=
  ⟨((claim7_name_resolution fnX "t://{x}" none none none).1 "bob"
      (by decide) (by decide)).1,
    (claim7_name_resolution fnX "t://{x}" none none none).2.2⟩

/-- C7 counterexample: a supplied empty name is ignored in favour of the
callable's own name, and a supplied lambda-marker name triggers the
anonymous-callable failure — both contradicting the claim that any
supplied name is stored and excludes that failure. -/
theorem claim7_counterexample :
    ((ResourceTemplate.from_function fnX "t://{x}" (some "") none none
      none).map (fun T => T.name) = Except.ok "my_func" ∧
      ("my_func" : String) ≠ "") ∧
    (ResourceTemplate.from_function fnX "t://{x}" (some "<lambda>") none
      none none).map (fun T => T.name) =
        Except.error CompileError.anonymousCallable := by
  exact ⟨⟨by decide, by decide⟩, by decide⟩

/-! ### Claims about the matcher -/

/-- C2 (amended): for every template whose pattern consists of
non-metacharacter literals and distinct identifier placeholders, and
every URI not ending in a newline, matching is exact and anchored:
matches returns a mapping rather than raising, and the mapping is present
iff the URI decomposes along the pattern's literal/placeholder boundaries
with literals matched exactly and placeholders matched by one or more
non-slash characters. -/
theorem claim2_match_iff_decomp (T : ResourceTemplate) (ts : List Tok)
    (uri : String) (hpat : T.uri_template.data = renderToks ts)
    (hok : toksOk ts = true) (hnodup : (phNames ts).Nodup)
    (hlast : uri.data.getLast? ≠ some '\n') :
    ∃ mr, T.matches uri = MatchOutcome.result mr ∧
      (mr.isSome = true ↔ specMatch ts uri.data = true) := by
  have hnd : (groupNames (ts.map toSeg)).Nodup := by
    rw [groupNames_map_toSeg]; exact hnodup
  have hm : T.matches uri =
      MatchOutcome.result (matchSegs (ts.map toSeg) uri.data) := by
    unfold ResourceTemplate.matches
    rw [hpat, parseRx_render ts hok]
    show (if (groupNames (ts.map toSeg)).Nodup then
        MatchOutcome.result (matchSegs (ts.map toSeg) uri.data)
      else MatchOutcome.raises) = _
    rw [if_pos hnd]
  exact ⟨_, hm, matchSegs_isSome_iff ts uri.data hlast⟩

theorem claim2_match_iff_decomp_witness :
    tmplKV.matches "test://foo/123" =
      MatchOutcome.result (some [("key", "foo"), ("value", "123")]) ∧
    tmplKV.matches "test://foo" = MatchOutcome.result none ∧
    tmplKV.matches "other://foo/123" = MatchOutcome.result none ∧
    ∃ mr, tmplKV.matches "test://foo/123" = MatchOutcome.result mr ∧
      (mr.isSome = true ↔ specMatch toksKV "test://foo/123".data = true) :=
  ⟨by decide, by decide, by decide,
    claim2_match_iff_decomp tmplKV toksKV "test://foo/123" (by decide)
      (by decide) (by decide) (by decide)⟩

/-- C2 counterexample: the pattern a.b://(x) compiles (its placeholder x
is the callable's sole required parameter), yet the compiled template
accepts the URI azb://c although that URI does not decompose along the
pattern's boundaries with the literal segment matched exactly as literal
text — the unescaped regex dot matches any character. -/
theorem claim2_counterexample :
    (ResourceTemplate.from_function fnX "a.b://{x}" (some "t") none none
      none).map (fun T => T.matches "azb://c") =
        Except.ok (MatchOutcome.result (some [("x", "c")])) ∧
    renderToks toksDot = "a.b://{x}".data ∧
    specMatch toksDot "azb://c".data = false := by
  exact ⟨by decide, by decide, by decide⟩

/-- C5 (amended): for every template whose pattern consists of
non-metacharacter literals and distinct identifier placeholders, matches
never raises: it returns either a mapping or the absent value, for every
URI. -/
theorem claim5_no_raise (T : ResourceTemplate) (ts : List Tok) (uri : String)
    (hpat : T.uri_template.data = renderToks ts) (hok : toksOk ts = true)
    (hnodup : (phNames ts).Nodup) :
    ∃ mr, T.matches uri = MatchOutcome.result mr := by
  have hnd : (groupNames (ts.map toSeg)).Nodup := by
    rw [groupNames_map_toSeg]; exact hnodup
  refine ⟨matchSegs (ts.map toSeg) uri.data, ?_⟩
  unfold ResourceTemplate.matches
  rw [hpat, parseRx_render ts hok]
  show (if (groupNames (ts.map toSeg)).Nodup then
      MatchOutcome.result (matchSegs (ts.map toSeg) uri.data)
    else MatchOutcome.raises) = _
  rw [if_pos hnd]

theorem claim5_no_raise_witness :
    ∃ mr, tmplGreet.matches "greet://world" = MatchOutcome.result mr :=
  claim5_no_raise tmplGreet toksGreet "greet://world" (by decide)
    (by decide) (by decide)

/-- C5 counterexample: the pattern repeating the placeholder key compiles
(the placeholder set is a set, so the duplication is invisible to the
compiler), yet matches raises: the translated regex defines the group
name key twice, which Python's re rejects with re.error. -/
theorem claim5_counterexample :
    (ResourceTemplate.from_function dupFn "test://{key}/{key}" (some "t")
      none none none).map (fun T => T.matches "test://a/b") =
        Except.ok MatchOutcome.raises := by
  decide

/-! ### Claims about the invoker -/

/-- C3: for every compiled template and every URI accepted by matches,
passing the extracted parameter mapping to create_resource succeeds
(provided the callable itself does not fail) and the resulting Resource's
uri equals the input URI while its name, description, mimeType and tags
equal the template's. -/
theorem claim3_round_trip (T : ResourceTemplate) (uri : String)
    (ps : List (String × String)) (v : String)
    (_hm : T.matches uri = MatchOutcome.result (some ps))
    (hcall : callResult T ps = Except.ok v) :
    ∃ r, T.create_resource uri ps = Except.ok r ∧ r.uri = uri ∧
      r.name = T.name ∧ r.description = T.description ∧
      r.mime_type = T.mime_type ∧ r.tags = T.tags := by
  unfold ResourceTemplate.create_resource
  rw [hcall]
  exact ⟨_, rfl, rfl, rfl, rfl, rfl, rfl⟩

theorem claim3_round_trip_witness :
    ∃ r, tmplKV.create_resource "test://foo/123"
        [("key", "foo"), ("value", "123")] = Except.ok r ∧
      r.uri = "test://foo/123" ∧ r.name = tmplKV.name ∧
      r.description = tmplKV.description ∧
      r.mime_type = tmplKV.mime_type ∧ r.tags = tmplKV.tags :=
  claim3_round_trip tmplKV "test://foo/123" [("key", "foo"), ("value", "123")]
    "foo:123" (by decide) (by decide)

/-- C4: every exception of the callable during create_resource (a failing
call or a failing await, including coercion errors of the validate_call
wrapper) is caught and re-raised as the single uniform kind ValueError
whose message includes the original cause's message; the native exception
type e.1 never reaches the caller. -/
theorem claim4_uniform_error (T : ResourceTemplate) (uri : String)
    (ps : List (String × String)) (e : PyErr)
    (h : callResult T ps = Except.error e) :
    T.create_resource uri ps =
      Except.error ("ValueError",
        "Error creating resource from template: " ++ e.2) := by
  unfold ResourceTemplate.create_resource
  rw [h]

theorem claim4_uniform_error_witness :
    tmplFail.create_resource "fail://test" [("x", "test")] =
      Except.error ("ValueError",
        "Error creating resource from template: Test error") := by
  rw [claim4_uniform_error tmplFail "fail://test" [("x", "test")]
    ("RuntimeError", "Test error") (by decide)]
  rfl

/-- C8: the content-producing capability of a successfully created
resource is the constant function returning the value computed once at
instantiation time; invoking it any number of times returns that same
value, with no further reference to the template's callable. -/
theorem claim8_idempotent_read (T : ResourceTemplate) (uri : String)
    (ps : List (String × String)) (r : FunctionResource)
    (h : T.create_resource uri ps = Except.ok r) :
    ∃ v, callResult T ps = Except.ok v ∧ r.fn = (fun _ => v) ∧
      ∀ u1 u2 : Unit, r.fn u1 = r.fn u2 := by
  unfold ResourceTemplate.create_resource at h
  cases hc : callResult T ps with
  | error e => rw [hc] at h; cases h
  | ok v =>
      rw [hc] at h
      cases h
      exact ⟨v, rfl, rfl, fun _ _ => rfl⟩

theorem claim8_idempotent_read_witness :
    ∃ v, callResult tmplKV [("key", "foo"), ("value", "123")] =
        Except.ok v ∧
      ({ uri := "test://foo/123", name := "test", description := "",
         mime_type := "text/plain", tags := ∅,
         fn := fun _ => "foo:123" } : FunctionResource).fn = (fun _ => v) ∧
      ∀ u1 u2 : Unit,
        ({ uri := "test://foo/123", name := "test", description := "",
           mime_type := "text/plain", tags := ∅,
           fn := fun _ => "foo:123" } : FunctionResource).fn u1 =
        ({ uri := "test://foo/123", name := "test", description := "",
           mime_type := "text/plain", tags := ∅,
           fn := fun _ => "foo:123" } : FunctionResource).fn u2 :=
  claim8_idempotent_read tmplKV "test://foo/123"
    [("key", "foo"), ("value", "123")] _ rfl

/-- C9: asynchronous callables are supported transparently: when the call
yields a coroutine, create_resource awaits it and uses the completed
value as the captured result. -/
theorem claim9_async (T : ResourceTemplate) (uri : String)
    (ps : List (String × String)) (v : String)
    (h : T.fn.call ps = Except.ok (FnR.coro (Except.ok v))) :
    ∃ r, T.create_resource uri ps = Except.ok r ∧ r.fn () = v ∧
      r.uri = uri := by
  have hc : callResult T ps = Except.ok v := by
    unfold callResult; rw [h]
  unfold ResourceTemplate.create_resource
  rw [hc]
  exact ⟨_, rfl, rfl, rfl⟩

theorem claim9_async_witness :
    ∃ r, tmplGreet.create_resource "greet://world" [("name", "world")] =
        Except.ok r ∧ r.fn () = "Hello, world!" ∧
      r.uri = "greet://world" :=
  claim9_async tmplGreet "greet://world" [("name", "world")]
    "Hello, world!" (by decide)

/-- C10: template equality is structural: t equals o exactly when o is
also a ResourceTemplate whose dumped field values (uri_template, name,
description, tags, mime_type, fn, parameters) all agree with t's, and
comparing against a non-template returns False rather than raising. -/
theorem claim10_structural_eq (t : ResourceTemplate) (o : PyObject) :
    (rtEq t o = true ↔
      ∃ t2, o = PyObject.template t2 ∧ modelDump t = modelDump t2) ∧
    ∀ i, rtEq t (PyObject.nonTemplate i) = false := by
  constructor
  · cases o with
    | template t2 => simp [rtEq]
    | nonTemplate i => simp [rtEq]
  · intro i; rfl

end FastMCP
